import Mathlib

/-!
Shallow embedding of the LUXBIN Morse light encoder
(source: src/luxbin_morse_light.py) and verification of its
specification claims.

Real-valued quantities of the Python program (wavelengths, intensities,
frequencies) are modelled as real numbers; durations are natural numbers
of milliseconds; Python integer floor division is Int.fdiv; the
exponential decay np.exp is Real.exp; a Python IndexError aborting an
encode call is an Except.error result.
-/

/-- Timing constant DOT_DURATION = 5 ms. -/
def DOT_DURATION : ℕ := 5

/-- Timing constant DASH_DURATION = 15 ms. -/
def DASH_DURATION : ℕ := 15

/-- Timing constant INTRA_CHAR_GAP = 5 ms. -/
def INTRA_CHAR_GAP : ℕ := 5

/-- Timing constant CHAR_GAP = 15 ms. -/
def CHAR_GAP : ℕ := 15

/-- Timing constant WORD_GAP = 35 ms. -/
def WORD_GAP : ℕ := 35

/-- Comb parameter PUMP_WAVELENGTH = 1550 nm. -/
noncomputable def PUMP_WAVELENGTH : ℝ := 1550

/-- Comb parameter COMB_SPACING = 0.1 nm. -/
noncomputable def COMB_SPACING : ℝ := 0.1

/-- Comb parameter NUM_COMB_LINES = 20. -/
def NUM_COMB_LINES : ℤ := 20

/-- Comb parameter KERR_NONLINEARITY = 1.5. -/
noncomputable def KERR_NONLINEARITY : ℝ := 1.5

/-- The LUXBIN_TO_MORSE dictionary as a partial lookup from characters to
morse pattern strings; returns none for characters outside the table. -/
def LUXBIN_TO_MORSE : Char → Option String
  | 'A' => some ".-"
  | 'B' => some "-..."
  | 'C' => some "-.-."
  | 'D' => some "-.."
  | 'E' => some "."
  | 'F' => some "..-."
  | 'G' => some "--."
  | 'H' => some "...."
  | 'I' => some ".."
  | 'J' => some ".---"
  | 'K' => some "-.-"
  | 'L' => some ".-.."
  | 'M' => some "--"
  | 'N' => some "-."
  | 'O' => some "---"
  | 'P' => some ".--."
  | 'Q' => some "--.-"
  | 'R' => some ".-."
  | 'S' => some "..."
  | 'T' => some "-"
  | 'U' => some "..-"
  | 'V' => some "...-"
  | 'W' => some ".--"
  | 'X' => some "-..-"
  | 'Y' => some "-.--"
  | 'Z' => some "--.."
  | '0' => some "-----"
  | '1' => some ".----"
  | '2' => some "..---"
  | '3' => some "...--"
  | '4' => some "....-"
  | '5' => some "....."
  | '6' => some "-...."
  | '7' => some "--..."
  | '8' => some "---.."
  | '9' => some "----."
  | ' ' => some " "
  | '.' => some ".-.-.-"
  | ',' => some "--..--"
  | '!' => some "-.-.--"
  | '?' => some "..--.."
  | ';' => some "-.-.-."
  | ':' => some "---..."
  | '-' => some "-....-"
  | '(' => some "-.--."
  | ')' => some "-.--.-"
  | '[' => some "-.--."
  | ']' => some "-.--.-"
  | '{' => some "-.--."
  | '}' => some "-.--.-"
  | '@' => some ".--.-."
  | '#' => some "....--"
  | '$' => some "...-..-"
  | '%' => some ".--.--"
  | '^' => some ".-..."
  | '&' => some ".-..."
  | '*' => some "-..-"
  | '+' => some ".-.-."
  | '=' => some "-...-"
  | '_' => some "..--.-"
  | '~' => some ".--.."
  | '`' => some ".----."
  | '<' => some ".-..-"
  | '>' => some ".-..-."
  | '"' => some ".-..-."
  | '\'' => some ".----."
  | '|' => some "-..-."
  | '\\' => some ".----"
  | _ => none

/-- LUXBIN_TO_MORSE.get(char, '....'): total lookup with the four-dot
fallback pattern for unmapped characters. -/
def morseOrDefault (c : Char) : String :=
  (LUXBIN_TO_MORSE c).getD "...."

/-- One comb line record produced by FrequencyCombGenerator.generate_comb. -/
structure CombLine where
  wavelength_nm : ℝ
  frequency_hz : ℝ
  intensity : ℝ
  comb_line : ℤ
  morse_symbol : Char

/-- The field state of a FrequencyCombGenerator instance; __init__ stores
its four arguments without any validation. -/
structure FrequencyCombGenerator where
  pump_wavelength : ℝ
  comb_spacing : ℝ
  num_lines : ℤ
  kerr_coeff : ℝ

/-- The generator built with all default arguments,
FrequencyCombGenerator(), as used by LuxbinMorseLight.__init__. -/
noncomputable def defaultGen : FrequencyCombGenerator :=
  { pump_wavelength := PUMP_WAVELENGTH
    comb_spacing := COMB_SPACING
    num_lines := NUM_COMB_LINES
    kerr_coeff := KERR_NONLINEARITY }

/-- The list of integers lo, lo+1, ..., hi-1 (Python range(lo, hi)). -/
def intRange (lo hi : ℤ) : List ℤ :=
  (List.range (hi - lo).toNat).map fun k : ℕ => lo + (k : ℤ)

/-- The loop indices range(-num_lines//2, num_lines//2 + 1) of
generate_comb, with Python floor division. -/
def combIndices (n : ℤ) : List ℤ :=
  intRange (Int.fdiv (-n) 2) (Int.fdiv n 2 + 1)

/-- The comb line generated for loop index i in generate_comb:
frequency base_freq + i·spacing·1e12 with base_freq = c/(λ·1e-9),
wavelength c/new_freq·1e9, intensity (1.0 for dot, 2.5 otherwise) times
the decay exp(-|i|·kerr). -/
noncomputable def combLineAt (g : FrequencyCombGenerator)
    (character_wavelength : ℝ) (morse_symbol : Char) (i : ℤ) : CombLine :=
  { wavelength_nm :=
      299792458 / (299792458 / (character_wavelength * 1e-9)
        + (i : ℝ) * g.comb_spacing * 1e12) * 1e9
    frequency_hz :=
      299792458 / (character_wavelength * 1e-9) + (i : ℝ) * g.comb_spacing * 1e12
    intensity :=
      (if morse_symbol = '.' then (1.0 : ℝ) else 2.5)
        * Real.exp (-((i.natAbs : ℝ)) * g.kerr_coeff)
    comb_line := i
    morse_symbol := morse_symbol }

/-- FrequencyCombGenerator.generate_comb: one CombLine per loop index. -/
noncomputable def FrequencyCombGenerator.generate_comb
    (g : FrequencyCombGenerator) (character_wavelength : ℝ)
    (morse_symbol : Char) : List CombLine :=
  (combIndices g.num_lines).map (combLineAt g character_wavelength morse_symbol)

/-- FrequencyCombGenerator.get_quantum_efficiency: total intensity over
num_lines·1.0, or 0 when that reference is not positive. -/
noncomputable def FrequencyCombGenerator.get_quantum_efficiency
    (g : FrequencyCombGenerator) (comb_lines : List CombLine) : ℝ :=
  let total_photons := (comb_lines.map CombLine.intensity).sum
  let pump_photons := (g.num_lines : ℝ) * 1.0
  if pump_photons > 0 then total_photons / pump_photons else 0

/-- One pulse record of the morse light sequence.  The optional fields
comb_center_line and num_comb_lines are present only on dot/dash pulses
in the Python dictionaries, modelled here as Option fields. -/
structure Pulse where
  wavelength_nm : ℝ
  duration_ms : ℕ
  char : String
  morse : String
  is_gap : Bool
  frequency_comb : Option (List CombLine)
  quantum_efficiency : ℝ
  comb_center_line : Option ℝ
  num_comb_lines : Option ℕ

/-- The single pulse emitted for a space character: 637 nm, WORD_GAP
duration, morse marker SPACE, flagged as a gap, no comb. -/
noncomputable def spacePulse : Pulse :=
  { wavelength_nm := 637
    duration_ms := WORD_GAP
    char := " "
    morse := "SPACE"
    is_gap := true
    frequency_comb := none
    quantum_efficiency := 0
    comb_center_line := none
    num_comb_lines := none }

/-- The gap pulse emitted between symbols of the same character. -/
noncomputable def intraGapPulse : Pulse :=
  { wavelength_nm := 0
    duration_ms := INTRA_CHAR_GAP
    char := ""
    morse := ""
    is_gap := true
    frequency_comb := none
    quantum_efficiency := 0
    comb_center_line := none
    num_comb_lines := none }

/-- The gap pulse emitted between consecutive characters. -/
noncomputable def charGapPulse : Pulse :=
  { wavelength_nm := 0
    duration_ms := CHAR_GAP
    char := ""
    morse := ""
    is_gap := true
    frequency_comb := none
    quantum_efficiency := 0
    comb_center_line := none
    num_comb_lines := none }

/-- The pulse emitted for one dot/dash symbol of character c at the
assigned base wavelength: comb and efficiency from the generator,
duration DOT_DURATION for '.' and DASH_DURATION otherwise. -/
noncomputable def symbolPulse (g : FrequencyCombGenerator) (c : Char)
    (base_wavelength : ℝ) (s : Char) : Pulse :=
  { wavelength_nm := base_wavelength
    duration_ms := if s = '.' then DOT_DURATION else DASH_DURATION
    char := c.toString
    morse := s.toString
    is_gap := false
    frequency_comb := some (g.generate_comb base_wavelength s)
    quantum_efficiency :=
      g.get_quantum_efficiency (g.generate_comb base_wavelength s)
    comb_center_line := some base_wavelength
    num_comb_lines := some (g.generate_comb base_wavelength s).length }

/-- The pulses contributed by one pattern entry: one symbolPulse when the
entry is a dot or a dash (the guard symbol in ['.','-']), else none. -/
noncomputable def symbolPulses (g : FrequencyCombGenerator) (c : Char)
    (base_wavelength : ℝ) (s : Char) : List Pulse :=
  if s = '.' ∨ s = '-' then [symbolPulse g c base_wavelength s] else []

/-- The inner loop over a character's morse pattern: the pulses of each
pattern entry, with an intraGapPulse after every entry except the last. -/
noncomputable def expandPattern (g : FrequencyCombGenerator) (c : Char)
    (base_wavelength : ℝ) : List Char → List Pulse
  | [] => []
  | [s] => symbolPulses g c base_wavelength s
  | s :: s2 :: rest =>
      symbolPulses g c base_wavelength s
        ++ intraGapPulse :: expandPattern g c base_wavelength (s2 :: rest)

/-- The char-gap pulse appended after a non-space character when it is
not the last character and the next character is not a space. -/
noncomputable def charGapIfNeeded : List Char → List Pulse
  | [] => []
  | c2 :: _ => if c2 = ' ' then [] else [charGapPulse]

/-- All pulses contributed by one character of the transliterated input,
given the remaining characters after it (used for the char-gap test). -/
noncomputable def charPulses (g : FrequencyCombGenerator) (c : Char)
    (base_wavelength : ℝ) (rest : List Char) : List Pulse :=
  if c = ' ' then [spacePulse]
  else expandPattern g c base_wavelength (morseOrDefault c).toList
    ++ charGapIfNeeded rest

/-- The failure raised when the wavelength array is exhausted before the
transliterated characters are (Python IndexError on wavelengths[i]). -/
inductive EncodeError where
  | IndexMismatch

/-- The main loop of encode_text_to_morse_light over the transliterated
characters and their positionally aligned wavelengths: wavelengths[i] is
read for every character (spaces included) before any branch, so a
missing entry aborts the whole call with no partial sequence. -/
noncomputable def encodeFrom (g : FrequencyCombGenerator) :
    List Char → List ℝ → Except EncodeError (List Pulse)
  | [], _ => Except.ok []
  | _ :: _, [] => Except.error EncodeError.IndexMismatch
  | c :: cs, w :: ws =>
      match encodeFrom g cs ws with
      | Except.ok rest => Except.ok (charPulses g c w cs ++ rest)
      | Except.error e => Except.error e

/-- LuxbinMorseLight.encode_text_to_morse_light, parameterised by the
external collaborators' outputs: the transliterated character sequence
and its aligned wavelength array.  Uses the default comb generator, as
LuxbinMorseLight.__init__ does. -/
noncomputable def encode_text_to_morse_light (luxbin : List Char)
    (wavelengths : List ℝ) : Except EncodeError (List Pulse) :=
  encodeFrom defaultGen luxbin wavelengths

/-- The pulse list of a successful encode call, empty on failure. -/
noncomputable def okPulses : Except EncodeError (List Pulse) → List Pulse
  | Except.ok l => l
  | Except.error _ => []

/-- The observable shape of a pulse used in the concrete scenarios:
wavelength, duration, morse marker, gap flag. -/
noncomputable def pulseView (p : Pulse) : ℝ × ℕ × String × Bool :=
  (p.wavelength_nm, p.duration_ms, p.morse, p.is_gap)

/-! ## Helper lemmas -/

theorem intRange_length (lo hi : ℤ) : (intRange lo hi).length = (hi - lo).toNat := by
  unfold intRange
  rw [List.length_map, List.length_range]

theorem mem_intRange {i lo hi : ℤ} : i ∈ intRange lo hi ↔ lo ≤ i ∧ i < hi := by
  unfold intRange
  rw [List.mem_map]
  constructor
  · rintro ⟨k, hk, rfl⟩
    rw [List.mem_range] at hk
    omega
  · rintro ⟨h1, h2⟩
    refine ⟨(i - lo).toNat, ?_, ?_⟩
    · rw [List.mem_range]
      omega
    · omega

theorem combIndices_length (n : ℕ) : (combIndices (n : ℤ)).length = n + 1 := by
  cases n with
  | zero => rfl
  | succ m =>
      have h1 : Int.fdiv ((m + 1 : ℕ) : ℤ) 2 = (((m + 1) / 2 : ℕ) : ℤ) := rfl
      have h2 : Int.fdiv (-(((m + 1 : ℕ)) : ℤ)) 2 = Int.negSucc (m / 2) := rfl
      rw [combIndices, intRange_length]
      rw [Nat.cast_add, Nat.cast_one] at h1 h2 ⊢
      rw [h1, h2, Int.negSucc_eq]
      omega

theorem combIndices_twenty : combIndices 20 = intRange (-10) 11 := rfl

theorem generate_comb_length (g : FrequencyCombGenerator) (w : ℝ) (s : Char) :
    (g.generate_comb w s).length = (combIndices g.num_lines).length := by
  unfold FrequencyCombGenerator.generate_comb
  rw [List.length_map]

theorem mem_generate_comb {g : FrequencyCombGenerator} {w : ℝ} {s : Char}
    {p : CombLine} (hp : p ∈ g.generate_comb w s) :
    ∃ i ∈ combIndices g.num_lines, p = combLineAt g w s i := by
  unfold FrequencyCombGenerator.generate_comb at hp
  rw [List.mem_map] at hp
  obtain ⟨i, hi, rfl⟩ := hp
  exact ⟨i, hi, rfl⟩

theorem combLineAt_mem (g : FrequencyCombGenerator) (w : ℝ) (s : Char)
    {i : ℤ} (hi : i ∈ combIndices g.num_lines) :
    combLineAt g w s i ∈ g.generate_comb w s := by
  unfold FrequencyCombGenerator.generate_comb
  exact List.mem_map_of_mem _ hi

theorem intensity_sum (g : FrequencyCombGenerator) (w : ℝ) (s : Char) :
    ((g.generate_comb w s).map CombLine.intensity).sum
      = (if s = '.' then (1.0 : ℝ) else 2.5)
        * ((combIndices g.num_lines).map
            fun i => Real.exp (-(i.natAbs : ℝ) * g.kerr_coeff)).sum := by
  unfold FrequencyCombGenerator.generate_comb
  rw [List.map_map]
  rw [show (CombLine.intensity ∘ combLineAt g w s)
      = fun i : ℤ => (if s = '.' then (1.0 : ℝ) else 2.5)
        * Real.exp (-(i.natAbs : ℝ) * g.kerr_coeff) from rfl]
  exact List.sum_map_mul_left _ _ _

theorem qe_formula (g : FrequencyCombGenerator) (w : ℝ) (s : Char) :
    g.get_quantum_efficiency (g.generate_comb w s)
      = if (g.num_lines : ℝ) * 1.0 > 0
        then ((if s = '.' then (1.0 : ℝ) else 2.5)
          * ((combIndices g.num_lines).map
              fun i => Real.exp (-(i.natAbs : ℝ) * g.kerr_coeff)).sum)
          / ((g.num_lines : ℝ) * 1.0)
        else 0 := by
  unfold FrequencyCombGenerator.get_quantum_efficiency
  rw [intensity_sum]

theorem decay_sum_pos (g : FrequencyCombGenerator) (h : combIndices g.num_lines ≠ []) :
    0 < ((combIndices g.num_lines).map
        fun i => Real.exp (-(i.natAbs : ℝ) * g.kerr_coeff)).sum := by
  apply List.sum_pos
  · intro x hx
    rw [List.mem_map] at hx
    obtain ⟨i, _, rfl⟩ := hx
    exact Real.exp_pos _
  · intro hnil
    rw [List.map_eq_nil_iff] at hnil
    exact h hnil

theorem encodeFrom_cons (g : FrequencyCombGenerator) (c : Char) (w : ℝ)
    (cs : List Char) (ws : List ℝ) :
    encodeFrom g (c :: cs) (w :: ws)
      = match encodeFrom g cs ws with
        | Except.ok rest => Except.ok (charPulses g c w cs ++ rest)
        | Except.error e => Except.error e := rfl

theorem mem_symbolPulses {g : FrequencyCombGenerator} {c : Char} {w : ℝ} {s : Char}
    {p : Pulse} (hp : p ∈ symbolPulses g c w s) :
    (s = '.' ∨ s = '-') ∧ p = symbolPulse g c w s := by
  unfold symbolPulses at hp
  split at hp
  · rw [List.mem_singleton] at hp
    exact ⟨by assumption, hp⟩
  · cases hp

theorem mem_expandPattern {g : FrequencyCombGenerator} {c : Char} {w : ℝ}
    {pat : List Char} {p : Pulse} (hp : p ∈ expandPattern g c w pat) :
    p = intraGapPulse ∨ ∃ s, (s = '.' ∨ s = '-') ∧ p = symbolPulse g c w s := by
  induction pat with
  | nil => cases hp
  | cons s rest ih =>
      cases rest with
      | nil =>
          obtain ⟨hs, hps⟩ := mem_symbolPulses hp
          exact Or.inr ⟨s, hs, hps⟩
      | cons s2 r2 =>
          rw [show expandPattern g c w (s :: s2 :: r2)
              = symbolPulses g c w s
                ++ intraGapPulse :: expandPattern g c w (s2 :: r2) from rfl,
            List.mem_append] at hp
          rcases hp with hp | hp
          · obtain ⟨hs, hps⟩ := mem_symbolPulses hp
            exact Or.inr ⟨s, hs, hps⟩
          · rw [List.mem_cons] at hp
            rcases hp with hp | hp
            · exact Or.inl hp
            · exact ih hp

theorem mem_charPulses {g : FrequencyCombGenerator} {c : Char} {w : ℝ}
    {rest : List Char} {p : Pulse} (hp : p ∈ charPulses g c w rest) :
    p = spacePulse ∨ p = charGapPulse ∨ p = intraGapPulse
      ∨ ∃ s, (s = '.' ∨ s = '-') ∧ p = symbolPulse g c w s := by
  unfold charPulses at hp
  split at hp
  · rw [List.mem_singleton] at hp
    exact Or.inl hp
  · rw [List.mem_append] at hp
    rcases hp with hp | hp
    · rcases mem_expandPattern hp with h | h
      · exact Or.inr (Or.inr (Or.inl h))
      · exact Or.inr (Or.inr (Or.inr h))
    · rcases rest with _ | ⟨c2, r2⟩
      · simp [charGapIfNeeded] at hp
      · rw [show charGapIfNeeded (c2 :: r2)
            = if c2 = ' ' then [] else [charGapPulse] from rfl] at hp
        split at hp
        · cases hp
        · rw [List.mem_singleton] at hp
          exact Or.inr (Or.inl hp)

theorem comb_wavelength_anti (w : ℝ) (s : Char) (hw0 : 0 < w) (hw1 : w ≤ 10000)
    {i j : ℤ} (hi : i ∈ combIndices 20) (hj : j ∈ combIndices 20) (hij : i < j) :
    (combLineAt defaultGen w s j).wavelength_nm
      < (combLineAt defaultGen w s i).wavelength_nm := by
  rw [combIndices_twenty, mem_intRange] at hi hj
  have hx : (-10 : ℝ) ≤ (i : ℝ) := by exact_mod_cast hi.1
  have hy : (-10 : ℝ) ≤ (j : ℝ) := by exact_mod_cast hj.1
  have hxy : (i : ℝ) < (j : ℝ) := by exact_mod_cast hij
  have hsp : defaultGen.comb_spacing = 0.1 := rfl
  show (299792458 : ℝ)
        / (299792458 / (w * 1e-9) + (j : ℝ) * defaultGen.comb_spacing * 1e12) * 1e9
      < 299792458
        / (299792458 / (w * 1e-9) + (i : ℝ) * defaultGen.comb_spacing * 1e12) * 1e9
  rw [hsp]
  have hwp : 0 < w * 1e-9 := by positivity
  have hB : (1e12 : ℝ) < 299792458 / (w * 1e-9) := by
    rw [lt_div_iff₀ hwp]
    nlinarith
  have hx0 : 0 < 299792458 / (w * 1e-9) + (i : ℝ) * 0.1 * 1e12 := by nlinarith
  have hlt : 299792458 / (w * 1e-9) + (i : ℝ) * 0.1 * 1e12
      < 299792458 / (w * 1e-9) + (j : ℝ) * 0.1 * 1e12 := by nlinarith
  have hdiv := div_lt_div_of_pos_left (by norm_num : (0 : ℝ) < 299792458) hx0 hlt
  exact mul_lt_mul_of_pos_right hdiv (by norm_num)

theorem defaultGen_num_lines : ((defaultGen.num_lines : ℤ) : ℝ) = 20 := by
  norm_num [defaultGen, NUM_COMB_LINES]

theorem defaultGen_qe (lines : List CombLine) :
    defaultGen.get_quantum_efficiency lines
      = (lines.map CombLine.intensity).sum / 20 := by
  simp only [FrequencyCombGenerator.get_quantum_efficiency]
  rw [defaultGen_num_lines]
  rw [if_pos (by norm_num : (20 : ℝ) * 1.0 > 0)]
  norm_num

/-! ## Claim theorems -/

/-- Claim C1, counterexample: the invariant is_gap == (wavelength_nm == 0)
as stated is false on the code: encoding a single space yields the Space
pulse with is_gap = true but wavelength_nm = 637 ≠ 0. -/
theorem C1_counterexample :
    ¬ (∀ p ∈ okPulses (encode_text_to_morse_light [' '] [500]),
        (p.is_gap = true ↔ p.wavelength_nm = 0)) := by
  intro h
  have hm : spacePulse ∈ okPulses (encode_text_to_morse_light [' '] [500]) := by
    rw [show okPulses (encode_text_to_morse_light [' '] [500]) = [spacePulse] from rfl]
    exact List.mem_singleton_self _
  have h2 := (h spacePulse hm).mp rfl
  have h3 : spacePulse.wavelength_nm = 637 := rfl
  rw [h3] at h2
  norm_num at h2

/-- Claim C1 (amended): for every input text and aligned wavelength array
whose entries are all nonzero, every pulse in the sequence returned by
encode satisfies is_gap == (wavelength_nm == 0 or the pulse is the Space
word-gap pulse): a pulse is marked as a gap exactly when its wavelength
is zero or it is the 637 nm word-gap pulse for a space character. -/
theorem C1_amended :
    ∀ (luxbin : List Char) (ws : List ℝ), (∀ w ∈ ws, w ≠ (0 : ℝ)) →
      ∀ p ∈ okPulses (encode_text_to_morse_light luxbin ws),
        (p.is_gap = true ↔ (p.wavelength_nm = 0 ∨ p.morse = "SPACE")) := by
  intro luxbin
  unfold encode_text_to_morse_light
  induction luxbin with
  | nil =>
      intro ws hws p hp
      rw [show okPulses (encodeFrom defaultGen [] ws) = [] from rfl] at hp
      cases hp
  | cons c cs ih =>
      intro ws hws p hp
      cases ws with
      | nil =>
          rw [show okPulses (encodeFrom defaultGen (c :: cs) []) = [] from rfl] at hp
          cases hp
      | cons w ws2 =>
          cases hrec : encodeFrom defaultGen cs ws2 with
          | error e =>
              have herr : encodeFrom defaultGen (c :: cs) (w :: ws2)
                  = Except.error e := by
                rw [encodeFrom_cons, hrec]
              rw [herr] at hp
              rw [show okPulses (Except.error e) = [] from rfl] at hp
              cases hp
          | ok rest =>
              have hok : encodeFrom defaultGen (c :: cs) (w :: ws2)
                  = Except.ok (charPulses defaultGen c w cs ++ rest) := by
                rw [encodeFrom_cons, hrec]
              rw [hok] at hp
              rw [show okPulses (Except.ok (charPulses defaultGen c w cs ++ rest))
                  = charPulses defaultGen c w cs ++ rest from rfl] at hp
              rw [List.mem_append] at hp
              rcases hp with hp | hp
              · rcases mem_charPulses hp with h1 | h1 | h1 | ⟨s, hs, h1⟩
                · subst h1
                  constructor
                  · intro _
                    exact Or.inr rfl
                  · intro _
                    rfl
                · subst h1
                  constructor
                  · intro _
                    exact Or.inl rfl
                  · intro _
                    rfl
                · subst h1
                  constructor
                  · intro _
                    exact Or.inl rfl
                  · intro _
                    rfl
                · subst h1
                  have hw : w ≠ 0 := hws w (List.mem_cons_self w ws2)
                  constructor
                  · intro hfalse
                    exact Bool.noConfusion hfalse
                  · intro hor
                    rcases hor with h0 | hsp
                    · exact absurd h0 hw
                    · rcases hs with rfl | rfl
                      · exact absurd hsp (show ¬ ('.').toString = "SPACE" by decide)
                      · exact absurd hsp (show ¬ ('-').toString = "SPACE" by decide)
              · exact ih ws2 (fun x hx => hws x (List.mem_cons_of_mem w hx)) p
                  (by rw [hrec]; exact hp)

/-- Claim C1 witness: the amended invariant instantiated at the input E
with the single nonzero wavelength 500. -/
theorem C1_witness :
    (∀ w ∈ [(500 : ℝ)], w ≠ (0 : ℝ))
    ∧ (∀ p ∈ okPulses (encode_text_to_morse_light ['E'] [500]),
        (p.is_gap = true ↔ (p.wavelength_nm = 0 ∨ p.morse = "SPACE"))) :=
  ⟨by norm_num, C1_amended ['E'] [500] (by norm_num)⟩

/-- Claim C2, counterexample: for input S,O,S with wavelengths
[500, 510, 520] the total duration of the emitted pulses is not 105 ms
(the three dashes of O take 15 ms each, so the true total is 135 ms). -/
theorem C2_counterexample :
    ((okPulses (encode_text_to_morse_light ['S', 'O', 'S'] [500, 510, 520])).map
        Pulse.duration_ms).sum ≠ 105 := by
  have h : ((okPulses (encode_text_to_morse_light ['S', 'O', 'S'] [500, 510, 520])).map
      Pulse.duration_ms).sum = 135 := rfl
  rw [h]
  norm_num

/-- Claim C2 (amended): for input S,O,S with wavelengths [500, 510, 520]
the pulse sequence is the expansions of S (dot dot dot), O (dash dash
dash), S (dot dot dot) with a 5 ms IntraCharGap between symbols of the
same character and a 15 ms CharGap between the three characters, and the
durations sum to 135 ms (25 + 15 + 55 + 15 + 25). -/
theorem C2_amended :
    (okPulses (encode_text_to_morse_light ['S', 'O', 'S'] [500, 510, 520])).map pulseView
      = [(500, 5, ".", false), (0, 5, "", true), (500, 5, ".", false), (0, 5, "", true),
         (500, 5, ".", false), (0, 15, "", true),
         (510, 15, "-", false), (0, 5, "", true), (510, 15, "-", false), (0, 5, "", true),
         (510, 15, "-", false), (0, 15, "", true),
         (520, 5, ".", false), (0, 5, "", true), (520, 5, ".", false), (0, 5, "", true),
         (520, 5, ".", false)]
    ∧ ((okPulses (encode_text_to_morse_light ['S', 'O', 'S'] [500, 510, 520])).map
        Pulse.duration_ms).sum = 135 :=
  ⟨rfl, rfl⟩

/-- Claim C3, counterexample: encoding a single space with an empty
wavelength array fails with IndexMismatch, because wavelengths[i] is
read before the space branch; the claim said it does not fail. -/
theorem C3_counterexample :
    encode_text_to_morse_light [' '] [] = Except.error EncodeError.IndexMismatch := rfl

/-- Claim C3 (amended): encoding a single space with a wavelength array
holding at least one entry (its value irrelevant) returns exactly one
pulse with wavelength 637, duration 35, Space kind and is_gap true. -/
theorem C3_amended (w : ℝ) (ws : List ℝ) :
    encode_text_to_morse_light [' '] (w :: ws)
      = Except.ok [Pulse.mk 637 35 " " "SPACE" true none 0 none none] := rfl

/-- Claim C3 witness: the amended scenario at the wavelength array [500]. -/
theorem C3_witness :
    encode_text_to_morse_light [' '] [500]
      = Except.ok [Pulse.mk 637 35 " " "SPACE" true none 0 none none] :=
  C3_amended 500 []

/-- Claim C4, counterexample: for the default expander at 650 nm the
comb wavelength is not monotonically increasing with comb_index: the
frequency grows with the index, so the wavelength falls. -/
theorem C4_counterexample :
    ¬ (∀ p ∈ defaultGen.generate_comb 650 '.', ∀ q ∈ defaultGen.generate_comb 650 '.',
        p.comb_line < q.comb_line → p.wavelength_nm < q.wavelength_nm) := by
  intro h
  have h0 : (0 : ℤ) ∈ combIndices defaultGen.num_lines := by decide
  have h1 : (1 : ℤ) ∈ combIndices defaultGen.num_lines := by decide
  have hm0 := combLineAt_mem defaultGen 650 '.' h0
  have hm1 := combLineAt_mem defaultGen 650 '.' h1
  have hup := h _ hm0 _ hm1 (show (0 : ℤ) < 1 by decide)
  have hdown := comb_wavelength_anti 650 '.' (by norm_num) (by norm_num) h0 h1
      (show (0 : ℤ) < 1 by decide)
  exact lt_asymm hup hdown

/-- Claim C4 (amended): for every center wavelength 0 < λ ≤ 10000 nm and
every symbol kind, the default expander's comb has size N = 21, its
comb_index values are exactly the integers −10..10 (that is −⌊N/2⌋ to
+⌊N/2⌋), its wavelength_nm is monotonically DECREASING with comb_index,
and its intensity envelope is symmetric around index 0. -/
theorem C4_amended (w : ℝ) (s : Char) (hw0 : 0 < w) (hw1 : w ≤ 10000) :
    ((defaultGen.generate_comb w s).length = 21
      ∧ (∀ i : ℤ, (∃ p ∈ defaultGen.generate_comb w s, p.comb_line = i)
          ↔ (-10 ≤ i ∧ i ≤ 10)))
    ∧ (∀ p ∈ defaultGen.generate_comb w s, ∀ q ∈ defaultGen.generate_comb w s,
        p.comb_line < q.comb_line → q.wavelength_nm < p.wavelength_nm)
    ∧ (∀ p ∈ defaultGen.generate_comb w s, ∀ q ∈ defaultGen.generate_comb w s,
        p.comb_line = -q.comb_line → p.intensity = q.intensity) := by
  refine ⟨⟨?_, ?_⟩, ?_, ?_⟩
  · rw [generate_comb_length]
    decide
  · intro i
    constructor
    · rintro ⟨p, hp, rfl⟩
      obtain ⟨i2, hi2, rfl⟩ := mem_generate_comb hp
      rw [show (combLineAt defaultGen w s i2).comb_line = i2 from rfl]
      rw [show defaultGen.num_lines = 20 from rfl, combIndices_twenty, mem_intRange] at hi2
      omega
    · rintro ⟨h1, h2⟩
      refine ⟨combLineAt defaultGen w s i, ?_, rfl⟩
      apply combLineAt_mem
      rw [show defaultGen.num_lines = 20 from rfl, combIndices_twenty, mem_intRange]
      omega
  · intro p hp q hq hlt
    obtain ⟨i, hi, rfl⟩ := mem_generate_comb hp
    obtain ⟨j, hj, rfl⟩ := mem_generate_comb hq
    exact comb_wavelength_anti w s hw0 hw1 hi hj hlt
  · intro p hp q hq heq
    obtain ⟨i, hi, rfl⟩ := mem_generate_comb hp
    obtain ⟨j, hj, rfl⟩ := mem_generate_comb hq
    have hij : i = -j := heq
    subst hij
    show (if s = '.' then (1.0 : ℝ) else 2.5)
        * Real.exp (-((((-j).natAbs : ℕ) : ℝ)) * defaultGen.kerr_coeff)
      = (if s = '.' then (1.0 : ℝ) else 2.5)
        * Real.exp (-(((j.natAbs : ℕ) : ℝ)) * defaultGen.kerr_coeff)
    rw [Int.natAbs_neg]

/-- Claim C4 witness: the amended comb invariants at 650 nm for a dot. -/
theorem C4_witness :
    ((0 : ℝ) < 650 ∧ (650 : ℝ) ≤ 10000)
    ∧ (((defaultGen.generate_comb 650 '.').length = 21
        ∧ (∀ i : ℤ, (∃ p ∈ defaultGen.generate_comb 650 '.', p.comb_line = i)
            ↔ (-10 ≤ i ∧ i ≤ 10)))
      ∧ (∀ p ∈ defaultGen.generate_comb 650 '.', ∀ q ∈ defaultGen.generate_comb 650 '.',
          p.comb_line < q.comb_line → q.wavelength_nm < p.wavelength_nm)
      ∧ (∀ p ∈ defaultGen.generate_comb 650 '.', ∀ q ∈ defaultGen.generate_comb 650 '.',
          p.comb_line = -q.comb_line → p.intensity = q.intensity)) :=
  ⟨⟨by norm_num, by norm_num⟩, C4_amended 650 '.' (by norm_num) (by norm_num)⟩

/-- Claim C5, counterexample: the quantum-efficiency summary is not the
intensity sum divided by (comb size × 1.0): the code divides by the
configured num_lines (20), while the comb it generates has 21 lines. -/
theorem C5_counterexample :
    defaultGen.get_quantum_efficiency (defaultGen.generate_comb 650 '.')
      ≠ ((defaultGen.generate_comb 650 '.').map CombLine.intensity).sum
          / (((defaultGen.generate_comb 650 '.').length : ℕ) * 1.0) := by
  have hlen : (defaultGen.generate_comb 650 '.').length = 21 := by
    rw [generate_comb_length]
    decide
  have hS : 0 < ((defaultGen.generate_comb 650 '.').map CombLine.intensity).sum := by
    rw [intensity_sum, if_pos rfl]
    have hd := decay_sum_pos defaultGen (by decide)
    nlinarith
  rw [defaultGen_qe, hlen]
  intro h
  rw [show ((21 : ℕ) : ℝ) * 1.0 = 21 by norm_num] at h
  field_simp at h
  linarith

/-- Claim C5 (amended): for every comb produced by the default expander,
the quantum-efficiency summary equals the sum of the comb's line
intensities divided by the configured line count, which is the comb's
size minus one (the comb has 21 lines, the divisor is 20 × 1.0). -/
theorem C5_amended (w : ℝ) (s : Char) :
    defaultGen.get_quantum_efficiency (defaultGen.generate_comb w s)
      = ((defaultGen.generate_comb w s).map CombLine.intensity).sum
          / ((((defaultGen.generate_comb w s).length : ℕ) : ℝ) - 1)
    ∧ (defaultGen.generate_comb w s).length = 21 := by
  have hlen : (defaultGen.generate_comb w s).length = 21 := by
    rw [generate_comb_length]
    decide
  refine ⟨?_, hlen⟩
  rw [defaultGen_qe, hlen]
  norm_num

/-- Claim C5 witness: the amended efficiency formula at 650 nm for a dot. -/
theorem C5_witness :
    defaultGen.get_quantum_efficiency (defaultGen.generate_comb 650 '.')
      = ((defaultGen.generate_comb 650 '.').map CombLine.intensity).sum
          / ((((defaultGen.generate_comb 650 '.').length : ℕ) : ℝ) - 1)
    ∧ (defaultGen.generate_comb 650 '.').length = 21 :=
  C5_amended 650 '.'

/-- Claim C6, counterexample: construction of the expander performs no
validation: a generator built with an even comb size (20) and a negative
spacing is accepted and generates a comb, and encode proceeds normally
with the default (even, 20) configuration. -/
theorem C6_counterexample :
    (FrequencyCombGenerator.mk 1550 (-1) 20 1.5).num_lines % 2 = 0
    ∧ ((FrequencyCombGenerator.mk 1550 (-1) 20 1.5).generate_comb 650 '.').length = 21
    ∧ (okPulses (encode_text_to_morse_light ['E'] [500])).length = 1 := by
  refine ⟨rfl, ?_, rfl⟩
  rw [generate_comb_length]
  decide

/-- Claim C6 (amended): construction never fails and performs no
validation: for every parameter choice, even comb sizes and non-positive
spacings included, the constructed expander generates a comb of
num_lines + 1 lines. -/
theorem C6_amended (pw cs k w : ℝ) (s : Char) (n : ℕ) :
    ((FrequencyCombGenerator.mk pw cs (n : ℤ) k).generate_comb w s).length = n + 1 := by
  rw [generate_comb_length]
  exact combIndices_length n

/-- Claim C6 witness: the amended statement at an even size 20 and a
negative spacing. -/
theorem C6_witness :
    ((FrequencyCombGenerator.mk 1550 (-1) ((20 : ℕ) : ℤ) 1.5).generate_comb
        (650 : ℝ) '.').length = 20 + 1 :=
  C6_amended 1550 (-1) 1.5 650 '.' 20

/-- Claim C7: whenever the wavelength array is shorter than the
transliterated character sequence, encode fails with IndexMismatch and
returns no partial pulse sequence. -/
theorem C7_confirmed (luxbin : List Char) (ws : List ℝ) (h : ws.length < luxbin.length) :
    encode_text_to_morse_light luxbin ws = Except.error EncodeError.IndexMismatch := by
  unfold encode_text_to_morse_light
  induction luxbin generalizing ws with
  | nil => simp at h
  | cons c cs ih =>
      cases ws with
      | nil => rfl
      | cons w ws2 =>
          rw [encodeFrom_cons, ih ws2 (by simpa using h)]

/-- Claim C7 witness: the character A with an empty wavelength array. -/
theorem C7_witness :
    ([] : List ℝ).length < (['A'] : List Char).length
    ∧ encode_text_to_morse_light ['A'] [] = Except.error EncodeError.IndexMismatch :=
  ⟨by decide, C7_confirmed ['A'] [] (by decide)⟩

/-- Claim C8: a transliterated character outside the symbol table does
not fail the lookup: it is mapped to the four-dot fallback pattern, and
its pulse expansion is the expansion of that four-dot pattern. -/
theorem C8_confirmed (c : Char) (w : ℝ) (hc : LUXBIN_TO_MORSE c = none) :
    morseOrDefault c = "...."
    ∧ encode_text_to_morse_light [c] [w]
        = Except.ok (expandPattern defaultGen c w ['.', '.', '.', '.']) := by
  have hm : morseOrDefault c = "...." := by
    rw [morseOrDefault, hc]
    rfl
  refine ⟨hm, ?_⟩
  have hcs : ¬ c = ' ' := by
    intro h
    rw [h] at hc
    cases hc
  unfold encode_text_to_morse_light
  rw [show encodeFrom defaultGen [c] [w]
      = Except.ok (charPulses defaultGen c w [] ++ []) from rfl]
  rw [List.append_nil]
  unfold charPulses
  rw [if_neg hcs, hm]
  rw [show ("...." : String).toList = ['.', '.', '.', '.'] from rfl]
  rw [show charGapIfNeeded [] = ([] : List Pulse) from rfl, List.append_nil]

/-- Claim C8 witness: the lower-case character a is outside the table
and expands as four dots. -/
theorem C8_witness :
    LUXBIN_TO_MORSE 'a' = none
    ∧ (morseOrDefault 'a' = "...."
      ∧ encode_text_to_morse_light ['a'] [500]
          = Except.ok (expandPattern defaultGen 'a' 500 ['.', '.', '.', '.'])) :=
  ⟨rfl, C8_confirmed 'a' 500 rfl⟩

/-- Claim C9: for every even configured line count n (the default 20
included), generate_comb returns n + 1 comb lines, one more than the
configured count; the default expander has num_lines = 20 and its combs
have 21 lines. -/
theorem C9_confirmed (pw cs k w : ℝ) (s : Char) (n : ℕ) (_hn : Even n) :
    ((FrequencyCombGenerator.mk pw cs (n : ℤ) k).generate_comb w s).length = n + 1
    ∧ defaultGen.num_lines = 20
    ∧ (defaultGen.generate_comb w s).length = 21 := by
  refine ⟨?_, rfl, ?_⟩
  · rw [generate_comb_length]
    exact combIndices_length n
  · rw [generate_comb_length]
    decide

/-- Claim C9 witness: the default even line count 20 yields 21 lines. -/
theorem C9_witness :
    Even 20
    ∧ (((FrequencyCombGenerator.mk 1550 0.1 ((20 : ℕ) : ℤ) 1.5).generate_comb
          (650 : ℝ) '.').length = 20 + 1
      ∧ defaultGen.num_lines = 20
      ∧ (defaultGen.generate_comb (650 : ℝ) '.').length = 21) :=
  ⟨by decide, C9_confirmed 1550 0.1 1.5 650 '.' 20 (by decide)⟩

/-- Claim C10: for every pair of generators sharing line count and decay
coefficient and all positive center wavelengths, the efficiency summary
of a dash comb is exactly 2.5 times that of a dot comb, and the summary
does not depend on the center wavelength (nor on pump or spacing). -/
theorem C10_confirmed (g g2 : FrequencyCombGenerator) (w w2 : ℝ) (s : Char)
    (hn : g.num_lines = g2.num_lines) (hk : g.kerr_coeff = g2.kerr_coeff)
    (_hw : 0 < w) (_hw2 : 0 < w2) :
    g.get_quantum_efficiency (g.generate_comb w '-')
      = 2.5 * g.get_quantum_efficiency (g.generate_comb w '.')
    ∧ g.get_quantum_efficiency (g.generate_comb w s)
      = g2.get_quantum_efficiency (g2.generate_comb w2 s) := by
  constructor
  · rw [qe_formula, qe_formula]
    by_cases hp : ((g.num_lines : ℤ) : ℝ) * 1.0 > 0
    · rw [if_pos hp, if_pos hp]
      rw [if_neg (show ¬ ('-' = '.') by decide), if_pos rfl]
      ring
    · rw [if_neg hp, if_neg hp]
      ring
  · rw [qe_formula, qe_formula, hn, hk]

/-- Claim C10 witness: the dash/dot ratio and wavelength independence
for the default generator at 650 and 651 nm. -/
theorem C10_witness :
    (defaultGen.num_lines = defaultGen.num_lines
      ∧ defaultGen.kerr_coeff = defaultGen.kerr_coeff
      ∧ (0 : ℝ) < 650 ∧ (0 : ℝ) < 651)
    ∧ (defaultGen.get_quantum_efficiency (defaultGen.generate_comb 650 '-')
        = 2.5 * defaultGen.get_quantum_efficiency (defaultGen.generate_comb 650 '.')
      ∧ defaultGen.get_quantum_efficiency (defaultGen.generate_comb 650 '-')
        = defaultGen.get_quantum_efficiency (defaultGen.generate_comb 651 '-')) :=
  ⟨⟨rfl, rfl, by norm_num, by norm_num⟩,
    C10_confirmed defaultGen defaultGen 650 651 '-' rfl rfl (by norm_num) (by norm_num)⟩
